import Mathlib

/-!
Shallow embedding of the command-resolution and execution pipeline of
`hw1/shell.c` (a minimal interactive shell): PATH splitting
(`get_env_paths`), executable resolution (`get_first_abs_path`),
base-name extraction (`get_last_path_token`), argument-vector
construction (`get_args`), the external-command launcher (`runCmd`),
built-in lookup (`lookup`) and the per-line dispatch of `main`.

Modeling conventions:
* C strings are Lean `String`s (lists of characters); `NULL` pointers
  where they can flow are `Option.none`.
* The filesystem is the finite set of paths for which `access(p, F_OK)`
  succeeds, given as a `List String` with decidable membership.
* Reads of uninitialized variables and null-pointer dereferences are
  undefined behavior; where the C code can perform them the model
  returns an explicit marker (`Option.none`, `CrashOr.crash`, or a
  recorded flag) instead of a value.
* The fixed capacities of the C buffers (`char *paths[32]`,
  `char redir_target[128]`, the `char *args[tok_len]` VLA) are not
  modeled; sequences are unbounded, matching the abstract data model.
-/

/-- Result of running a piece of code that can hit undefined behavior
(null-pointer dereference): either a crash or a normal value. -/
inductive CrashOr (α : Type) where
  | crash : CrashOr α
  | ok : α → CrashOr α
deriving DecidableEq, Repr

/-- Tokens produced by a `strtok(·, sep)` loop over the character list:
the maximal nonempty runs of characters different from `sep`, in order.
`acc` holds the characters of the run currently being scanned (empty at
the initial call). `strtok` skips over consecutive separators, so empty
segments are never produced. -/
def strtokRuns (sep : Char) : List Char → List Char → List (List Char)
  | [], acc => if acc = [] then [] else [acc]
  | c :: cs, acc =>
    if c = sep then
      if acc = [] then strtokRuns sep cs []
      else acc :: strtokRuns sep cs []
    else strtokRuns sep cs (acc ++ [c])

/-- Joining a list of segments with a single separator character; this is
the inverse operation used to state what a PATH string joined from given
directory entries splits back into. -/
def joinSep (sep : Char) : List (List Char) → List Char
  | [] => []
  | [d] => d
  | d :: e :: ds => d ++ sep :: joinSep sep (e :: ds)

/-- Body of `get_env_paths` in shell.c once the PATH value is in hand:
a `strtok(pathvar, ":")` loop collecting the successive tokens into the
`paths` array. `strtok` with the single delimiter `:` yields exactly the
maximal nonempty runs of non-colon characters. -/
def get_env_paths (pathvar : String) : List String :=
  (strtokRuns ':' pathvar.data []).map String.mk

/-- Entry of `get_env_paths` including the environment access: the C code
runs `strdup(getenv("PATH"))`. When PATH is unset `getenv` returns NULL
and `strdup(NULL)` dereferences a null pointer (`strlen(NULL)`):
undefined behavior, modeled as `CrashOr.crash`. -/
def get_env_paths_from_env (env : Option String) : CrashOr (List String) :=
  match env with
  | none => CrashOr.crash
  | some pathvar => CrashOr.ok (get_env_paths pathvar)

/-- Embedding of `get_last_path_token` in shell.c: a `strtok_r(·, "/")`
loop that keeps in `cmd` the previous token each time a further token
exists, returning `cmd` at the end. `cmd` is assigned only when the path
has at least two nonempty slash-separated runs; for zero or one runs the
function returns the uninitialized local `cmd` (undefined behavior),
modeled as `none`. (The copy `malloc(strlen(path))` is also one byte too
short for the terminator; the string semantics modeled here are those of
the intended copy.) -/
def get_last_path_token (path : String) : Option String :=
  let toks := strtokRuns '/' path.data []
  if 2 ≤ toks.length then toks.getLast?.map String.mk else none

/-- The filesystem, as the finite set of paths for which
`access(p, F_OK)` succeeds (existence, not executability). -/
abbrev FileSys := List String

/-- Embedding of `get_first_abs_path` in shell.c: walk the search-path
entries in order, build `paths[i] + "/" + cmd`, and return the first
such concatenation that exists (`access(full_path, F_OK) != -1`);
`none` (NULL) when every entry is exhausted. -/
def get_first_abs_path (paths : List String) (cmd : String) (fs : FileSys) : Option String :=
  match paths with
  | [] => none
  | p :: rest =>
    let full_path := p ++ "/" ++ cmd
    if fs.contains full_path then some full_path
    else get_first_abs_path rest cmd fs

/-- Modelled from the spec: the tokenizer (`tokenizer.c`, declared in
`tokenizer.h` but not part of the sources here) is a black box producing
an ordered, read-only sequence of strings; `tokens_get_token` accesses
the token at a given index, and an index outside the sequence yields no
string (NULL). -/
def tokens_get_token (tokens : List String) (n : Nat) : Option String :=
  tokens.get? n

/-- Test performed by the `get_args` loop in shell.c on each token:
`strcmp(">",token)==0 || strcmp("<",token)==0`. -/
def isRedirTok (t : String) : Bool :=
  t == ">" || t == "<"

/-- The `get_args` scanning loop: copy tokens in order into the argument
vector until a redirection token is found (the `break`). Returns the
copied prefix together with, when a redirection token was found, that
token and the remaining tokens after it. -/
def splitAtRedir : List String → List String × Option (String × List String)
  | [] => ([], none)
  | t :: ts =>
    if isRedirTok t then ([], some (t, ts))
    else (t :: (splitAtRedir ts).1, (splitAtRedir ts).2)

/-- Outcome of `get_args` in shell.c. `args` is the argument vector up to
(not including) the NULL terminator written at the break index;
`redir_syn` / `redir_target` are the redirection outparams (`none` =
buffer left unwritten, or NULL fetched for the target); `oob_read`
records that `tokens_get_token` was called with an index equal to the
token count (out of range — the stock tokenizer returns NULL there and
the subsequent `strcat(redir_target, NULL)` is undefined behavior). -/
structure ArgsResult where
  args : List String
  redir_syn : Option String
  redir_target : Option String
  oob_read : Bool
deriving DecidableEq, Repr

/-- Embedding of `get_args` in shell.c. The loop breaks at the first
redirection token (index `i = args.length`), writes `args[i] = NULL`,
and — whenever the loop broke, i.e. `i < tok_len` — reads
`tokens_get_token(tokens, i+1)` as the redirection target. When the
redirection token is the last token, that read is at index `tok_len`,
out of range. -/
def get_args (tokens : List String) : ArgsResult :=
  match splitAtRedir tokens with
  | (args, none) => ⟨args, none, none, false⟩
  | (args, some (op, [])) => ⟨args, some op, none, true⟩
  | (args, some (op, tgt :: _)) => ⟨args, some op, some tgt, false⟩

/-- The `exit` status constant the child passes after `execv` returns. -/
def EXIT_SUCCESS : Nat := 0

/-- The `execv(abs_cmd, args)` call performed in the child. `argv` lists
the argument-vector entries up to the NULL terminator; an entry is
`none` when the C value is uninitialized (the `get_last_path_token`
undefined case). `argv_null_terminated` is `false` in the corner where
the `args[0]` rewrite overwrote the terminator (the loop broke at index
0), so the real vector continues into uninitialized slots. -/
structure ExecCall where
  path : String
  argv : List (Option String)
  argv_null_terminated : Bool
deriving DecidableEq, Repr

/-- Observable outcome of one `runCmd` call. `stderr_msg` is what is
printed to stderr; `forked` whether `fork()` ran; `exec` the call the
child performs (the child's entire behavior is `execv` followed by
`exit`); `child_exit_on_exec_failure` the status the child exits with if
`execv` returns; `redir_syn_at_fork` the contents of the `redir_syn`
buffer at `fork` time; `oob_read` carried over from `get_args`. -/
structure RunResult where
  stderr_msg : Option String
  forked : Bool
  exec : Option ExecCall
  child_exit_on_exec_failure : Option Nat
  redir_syn_at_fork : Option String
  oob_read : Bool
deriving DecidableEq, Repr

/-- Embedding of `runCmd` in shell.c. With no tokens it does nothing.
Otherwise it splits PATH, resolves the first token; on failure it prints
`"<cmd>: command not found\n"` to stderr and returns (no fork). On
success it builds the argument vector, overwrites `args[0]` with
`get_last_path_token(abs_cmd)`, resets `redir_syn` to the empty string
(discarding the redirection descriptor), forks, and the child executes
`execv(abs_cmd, args)` followed by `exit(EXIT_SUCCESS)` while the parent
waits. The function always returns to its caller (the read loop) in the
parent. -/
def runCmd (tokens : List String) (pathEnv : String) (fs : FileSys) : RunResult :=
  match tokens with
  | [] => ⟨none, false, none, none, none, false⟩
  | cmd :: rest =>
    match get_first_abs_path (get_env_paths pathEnv) cmd fs with
    | none => ⟨some (cmd ++ ": command not found\n"), false, none, none, none, false⟩
    | some abs_cmd =>
      let r := get_args (cmd :: rest)
      ⟨none, true,
       some ⟨abs_cmd, get_last_path_token abs_cmd :: (r.args.drop 1).map some,
             !r.args.isEmpty⟩,
       some EXIT_SUCCESS, some "", r.oob_read⟩

/-- The built-in table of shell.c (command and help columns; the handler
column is, in order, `cmd_pwd`, `cmd_cd`, `cmd_help`, `cmd_exit`). -/
def cmd_table : List (String × String) :=
  [("pwd", "print working directory"),
   ("cd", "change directory"),
   ("?", "show this help menu"),
   ("exit", "exit the command shell")]

/-- The scanning loop of `lookup`: index of the first table entry whose
command column equals `c`, starting the count at `i`. -/
def lookupIdx (c : String) : List (String × String) → Nat → Option Nat
  | [], _ => none
  | e :: es, i => if e.1 = c then some i else lookupIdx c es (i + 1)

/-- Embedding of `lookup` in shell.c: case-sensitive exact match of `cmd`
against the table's command column, guarded by `cmd &&` so a NULL name
yields `-1` (here `none`); otherwise the first matching index. -/
def lookup (cmd : Option String) : Option Nat :=
  match cmd with
  | none => none
  | some c => lookupIdx c cmd_table 0

/-- What the main loop does with one tokenized line: run the built-in at
the found table index, or delegate the whole token sequence to
`runCmd`. -/
inductive LineAction where
  | builtin : Nat → LineAction
  | run_ext : RunResult → LineAction
deriving DecidableEq, Repr

/-- Embedding of the dispatch in `main` of shell.c:
`fundex = lookup(tokens_get_token(tokens, 0))`; built-in when
`fundex >= 0`, else `runCmd(tokens)`. -/
def main_step (tokens : List String) (pathEnv : String) (fs : FileSys) : LineAction :=
  match lookup (tokens_get_token tokens 0) with
  | some i => LineAction.builtin i
  | none => LineAction.run_ext (runCmd tokens pathEnv fs)

/-- Observable outcome of `cmd_cd`: the pointer handed to `chdir`
(`none` = NULL, when token 1 is absent) and the returned status. -/
structure CdResult where
  dir_arg : Option String
  ret : Int
deriving DecidableEq, Repr

/-- Embedding of `cmd_cd` in shell.c: fetch token 1, call `chdir` on it
discarding the result, and return 0. `os_chdir` stands for the operating
system's verdict on the directory change; the code never consults it. -/
def cmd_cd (tokens : List String) (os_chdir : Option String → Bool) : CdResult :=
  let dir := tokens_get_token tokens 1
  let _ := os_chdir dir
  ⟨dir, 0⟩


/-- Tokens of a separator-free nonempty stretch: the scan just extends the
current run and emits it at the end. -/
theorem strtokRuns_no_sep (sep : Char) (cs : List Char) (h : sep ∉ cs) :
    ∀ acc : List Char, acc ++ cs ≠ [] → strtokRuns sep cs acc = [acc ++ cs] := by
  induction cs with
  | nil =>
    intro acc hne
    simp only [List.append_nil] at hne ⊢
    simp [strtokRuns, hne]
  | cons c cs ih =>
    intro acc hne
    simp only [List.mem_cons, not_or] at h
    have hc : ¬ c = sep := fun hEq => h.1 hEq.symm
    simp only [strtokRuns, if_neg hc]
    rw [ih h.2 (acc ++ [c]) (by simp)]
    simp

/-- Scanning a separator-free stretch followed by a separator emits the
accumulated run and restarts on the remainder. -/
theorem strtokRuns_sep_append (sep : Char) (cs : List Char) (h : sep ∉ cs) :
    ∀ (acc rest : List Char), acc ++ cs ≠ [] →
      strtokRuns sep (cs ++ sep :: rest) acc =
        (acc ++ cs) :: strtokRuns sep rest [] := by
  induction cs with
  | nil =>
    intro acc rest hne
    simp only [List.append_nil] at hne
    simp [strtokRuns, hne]
  | cons c cs ih =>
    intro acc rest hne
    simp only [List.mem_cons, not_or] at h
    have hc : ¬ c = sep := fun hEq => h.1 hEq.symm
    simp only [List.cons_append, strtokRuns, if_neg hc, List.append_eq]
    rw [ih h.2 (acc ++ [c]) rest (by simp)]
    simp

/-- Joining nonempty separator-free segments and tokenizing gives the
segments back: the strtok split keeps order, keeps duplicates, and its
only deviation from the raw split is dropping empty segments (here there
are none to drop). -/
theorem strtokRuns_joinSep (sep : Char) :
    ∀ ds : List (List Char), (∀ d ∈ ds, d ≠ [] ∧ sep ∉ d) →
      strtokRuns sep (joinSep sep ds) [] = ds := by
  intro ds
  induction ds with
  | nil => intro _; simp [joinSep, strtokRuns]
  | cons d ds ih =>
    intro h
    cases ds with
    | nil =>
      have hd := h d (by simp)
      simp only [joinSep]
      rw [strtokRuns_no_sep sep d hd.2 [] (by simpa using hd.1)]
      simp
    | cons e es =>
      have hd := h d (by simp)
      simp only [joinSep]
      rw [strtokRuns_sep_append sep d hd.2 [] (joinSep sep (e :: es))
            (by simpa using hd.1)]
      simp only [List.nil_append]
      rw [ih (fun x hx => h x (by simp [hx]))]

/-- Resolution is the first entry of the in-order candidate list that
exists on the filesystem. -/
theorem get_first_abs_path_eq_find (paths : List String) (cmd : String) (fs : FileSys) :
    get_first_abs_path paths cmd fs =
      (paths.map (fun d => d ++ "/" ++ cmd)).find? (fun p => fs.contains p) := by
  induction paths with
  | nil => rfl
  | cons p rest ih =>
    simp only [get_first_abs_path, List.map_cons]
    cases hc : fs.contains (p ++ "/" ++ cmd) with
    | true =>
      rw [List.find?_cons_of_pos _ (by simpa using hc)]
      simp [hc]
    | false =>
      rw [List.find?_cons_of_neg _ (by simpa using hc)]
      simp [hc, ih]

/-- Resolution returns NULL exactly when no search-path entry yields an
existing candidate. -/
theorem get_first_abs_path_isNone (paths : List String) (cmd : String) (fs : FileSys) :
    (get_first_abs_path paths cmd fs).isNone =
      paths.all (fun d => !(fs.contains (d ++ "/" ++ cmd))) := by
  induction paths with
  | nil => rfl
  | cons p rest ih =>
    simp only [get_first_abs_path, List.all_cons]
    cases hc : fs.contains (p ++ "/" ++ cmd) with
    | true => simp [hc]
    | false => simp [hc, ih]

/-- When every candidate is missing, resolution returns NULL. -/
theorem get_first_abs_path_eq_none (paths : List String) (cmd : String) (fs : FileSys)
    (h : paths.all (fun d => !(fs.contains (d ++ "/" ++ cmd))) = true) :
    get_first_abs_path paths cmd fs = none := by
  have h2 := get_first_abs_path_isNone paths cmd fs
  rw [h] at h2
  exact Option.isNone_iff_eq_none.mp h2

/-- With no redirection token among the tokens, the scan copies them all
and records no operator. -/
theorem splitAtRedir_no_op (ts : List String) (h : ∀ t ∈ ts, isRedirTok t = false) :
    splitAtRedir ts = (ts, none) := by
  induction ts with
  | nil => rfl
  | cons t ts ih =>
    have ht := h t (by simp)
    simp [splitAtRedir, ht, ih (fun x hx => h x (by simp [hx]))]

/-- The scan stops at the first redirection token and hands back what
follows it. -/
theorem splitAtRedir_append (pre : List String) (op : String) (rest : List String)
    (hop : isRedirTok op = true) (hpre : ∀ t ∈ pre, isRedirTok t = false) :
    splitAtRedir (pre ++ op :: rest) = (pre, some (op, rest)) := by
  induction pre with
  | nil => simp [splitAtRedir, hop]
  | cons t pre ih =>
    have ht := hpre t (by simp)
    simp [splitAtRedir, ht, ih (fun x hx => hpre x (by simp [hx]))]

/-- The argument vector built by get_args is the token prefix before the
first redirection token, in every branch. -/
theorem get_args_args (tokens : List String) :
    (get_args tokens).args = (splitAtRedir tokens).1 := by
  rcases hs : splitAtRedir tokens with ⟨args, r⟩
  rcases r with _ | ⟨op, _ | ⟨tgt, rest⟩⟩ <;> simp [get_args, hs]

/-- Unfolding of runCmd on a successfully resolved command. -/
theorem runCmd_resolved (cmd : String) (rest : List String) (pathEnv : String)
    (fs : FileSys) (absPath : String)
    (hres : get_first_abs_path (get_env_paths pathEnv) cmd fs = some absPath) :
    runCmd (cmd :: rest) pathEnv fs =
      ⟨none, true,
       some ⟨absPath,
             get_last_path_token absPath ::
               ((get_args (cmd :: rest)).args.drop 1).map some,
             !(get_args (cmd :: rest)).args.isEmpty⟩,
       some EXIT_SUCCESS, some "", (get_args (cmd :: rest)).oob_read⟩ := by
  simp [runCmd, hres]

/-- A name matching no table entry is never found, from any start index. -/
theorem lookupIdx_eq_none (c : String) :
    ∀ (l : List (String × String)) (i : Nat),
      (∀ e ∈ l, e.1 ≠ c) → lookupIdx c l i = none := by
  intro l
  induction l with
  | nil => intro i _; rfl
  | cons e es ih =>
    intro i h
    have he := h e (by simp)
    simp [lookupIdx, he, ih (i + 1) (fun x hx => h x (by simp [hx]))]

/-- C1: the claim says that when the child's execv fails (resolved path
not executable at launch), the child terminates with a non-zero-success
status. In the code the child runs `execv(abs_cmd, args); exit(EXIT_SUCCESS);`,
so whenever execv returns, the child exits with EXIT_SUCCESS = 0 — a
success status. Concretely at tokens ["wc","-l"], PATH "/usr/bin" and
"/usr/bin/wc" existing, the forked child's exit status on exec failure
is 0, and in general it is never anything other than 0. -/
theorem c1_exec_failure_child_exit_status :
    (runCmd ["wc", "-l"] "/usr/bin" ["/usr/bin/wc"]).child_exit_on_exec_failure =
      some EXIT_SUCCESS
  ∧ EXIT_SUCCESS = 0
  ∧ (∀ (tokens : List String) (pathEnv : String) (fs : FileSys),
       (runCmd tokens pathEnv fs).child_exit_on_exec_failure = none ∨
       (runCmd tokens pathEnv fs).child_exit_on_exec_failure = some 0) := by
  refine ⟨by decide, rfl, ?_⟩
  intro tokens pathEnv fs
  cases tokens with
  | nil => left; rfl
  | cons cmd rest =>
    cases hres : get_first_abs_path (get_env_paths pathEnv) cmd fs with
    | none => left; simp [runCmd, hres]
    | some a => right; simp [runCmd, hres, EXIT_SUCCESS]

/-- C2: for a non-empty token sequence whose first token resolves to no
existing file in any search-path directory, runCmd prints exactly
"cmd: command not found" (with the first token) to stderr, forks no
child, performs no exec, and returns normally to the read loop. -/
theorem c2_command_not_found (cmd : String) (rest : List String)
    (pathEnv : String) (fs : FileSys)
    (hnone : (get_env_paths pathEnv).all
        (fun d => !(fs.contains (d ++ "/" ++ cmd))) = true) :
    runCmd (cmd :: rest) pathEnv fs =
      ⟨some (cmd ++ ": command not found\n"), false, none, none, none, false⟩ := by
  have h := get_first_abs_path_eq_none (get_env_paths pathEnv) cmd fs hnone
  simp [runCmd, h]

/-- Witness for C2 at tokens ["nosuch"], PATH "/a", empty filesystem. -/
theorem c2_command_not_found_witness :
    (get_env_paths "/a").all
        (fun d => !(([] : FileSys).contains (d ++ "/" ++ "nosuch"))) = true
  ∧ runCmd ["nosuch"] "/a" [] =
      ⟨some ("nosuch" ++ ": command not found\n"), false, none, none, none, false⟩ :=
  ⟨by decide, c2_command_not_found "nosuch" [] "/a" [] (by decide)⟩

/-- C3: executable resolution walks the directory list in order, builds
dir + "/" + name for each, and returns the first candidate that exists
on the filesystem (existence only); it returns none exactly when no
directory yields an existing candidate; and with list ["/a","/b"] and
the file present in both, the "/a" candidate is returned. -/
theorem c3_resolution_first_match (paths : List String) (cmd : String) (fs : FileSys) :
    get_first_abs_path paths cmd fs =
      (paths.map (fun d => d ++ "/" ++ cmd)).find? (fun p => fs.contains p)
  ∧ (get_first_abs_path paths cmd fs).isNone =
      paths.all (fun d => !(fs.contains (d ++ "/" ++ cmd)))
  ∧ get_first_abs_path ["/a", "/b"] "cmd" ["/a/cmd", "/b/cmd"] = some "/a/cmd" :=
  ⟨get_first_abs_path_eq_find paths cmd fs,
   get_first_abs_path_isNone paths cmd fs,
   by decide⟩

/-- C4 counterexample: the claim says splitting "/a::/b" preserves the
empty segment, yielding the three entries "/a", "", "/b". The strtok
loop skips empty segments: it yields exactly ["/a","/b"]. -/
theorem c4_empty_segments_counterexample :
    get_env_paths "/a::/b" = ["/a", "/b"]
  ∧ get_env_paths "/a::/b" ≠ ["/a", "", "/b"] :=
  ⟨by decide, by decide⟩

/-- C4 (amended): splitting the search-path string drops empty segments
(strtok treats consecutive separators as one), and performs no
deduplication and no reordering: joining any nonempty, colon-free
entries with ':' splits back to exactly that entry sequence, duplicates
included. Concretely, "/a::/b" yields ["/a","/b"] and "/a:/a" yields
["/a","/a"]. -/
theorem c4_split_skips_empty_no_dedup :
    (∀ ds : List (List Char), (∀ d ∈ ds, d ≠ [] ∧ ':' ∉ d) →
       strtokRuns ':' (joinSep ':' ds) [] = ds)
  ∧ get_env_paths "/a::/b" = ["/a", "/b"]
  ∧ get_env_paths "/a:/a" = ["/a", "/a"] := by
  refine ⟨?_, by decide, by decide⟩
  intro ds h
  exact strtokRuns_joinSep ':' ds h

/-- Witness for C4 (amended) at the duplicated entry list [['a'],['a']]. -/
theorem c4_split_skips_empty_no_dedup_witness :
    (∀ d ∈ [['a'], ['a']], d ≠ [] ∧ ':' ∉ d)
  ∧ strtokRuns ':' (joinSep ':' [['a'], ['a']]) [] = [['a'], ['a']] :=
  ⟨by decide, c4_split_skips_empty_no_dedup.1 [['a'], ['a']] (by decide)⟩

/-- C5 (code bug): the claim says get_env_paths fails gracefully with an
empty directory list when PATH is unset. The code instead runs
strdup(getenv("PATH")) with a NULL argument — a null-pointer
dereference (crash), not an empty list. -/
theorem c5_unset_path_crash :
    get_env_paths_from_env none = CrashOr.crash
  ∧ get_env_paths_from_env none ≠ CrashOr.ok ([] : List String) :=
  ⟨rfl, by decide⟩

/-- C6 (code bug): the claim says a trailing "<" or ">" is tolerated
with target extraction skipped and no out-of-range token access. In the
code the loop breaks at i = tok_len - 1, so the guard i < tok_len holds
and the target read tokens_get_token(tokens, i+1) happens at index
tok_len — out of range (NULL from the tokenizer, then
strcat(redir_target, NULL)). The argument vector does hold the
preceding tokens, but the out-of-range access occurs. -/
theorem c6_trailing_redir_oob :
    get_args ["cat", ">"] = ⟨["cat"], some ">", none, true⟩
  ∧ (get_args ["cat", ">"]).oob_read = true :=
  ⟨by decide, by decide⟩

/-- C7 counterexample: with PATH entry "/" and the file "//wc" existing,
the command "wc" resolves to "//wc", whose final nonempty segment is
"wc"; but get_last_path_token leaves cmd unassigned for a path with
fewer than two nonempty segments, so argv[0] is an uninitialized value
(none), not "wc". -/
theorem c7_argv0_counterexample :
    runCmd ["wc"] "/" ["//wc"] =
      ⟨none, true, some ⟨"//wc", [none], true⟩, some 0, some "", false⟩
  ∧ get_last_path_token "//wc" = none :=
  ⟨by decide, by decide⟩

/-- C7 (amended): for every successfully resolved command whose first
token is not itself a redirection operator and whose resolved path has
at least two nonempty '/'-separated segments, element 0 of the launched
argument vector equals the final nonempty '/'-delimited segment of the
resolved path (not the full path, not the caller token), and the vector
is null-terminated immediately after the last captured token. -/
theorem c7_argv0_basename_amended (cmd : String) (rest : List String)
    (pathEnv : String) (fs : FileSys) (absPath : String)
    (hres : get_first_abs_path (get_env_paths pathEnv) cmd fs = some absPath)
    (hcmd : isRedirTok cmd = false)
    (hseg : 2 ≤ (strtokRuns '/' absPath.data []).length) :
    (runCmd (cmd :: rest) pathEnv fs).exec =
      some ⟨absPath,
            ((strtokRuns '/' absPath.data []).getLast?.map String.mk) ::
              ((splitAtRedir rest).1.map some),
            true⟩ := by
  have hargs : (get_args (cmd :: rest)).args = cmd :: (splitAtRedir rest).1 := by
    rw [get_args_args]
    simp [splitAtRedir, hcmd]
  rw [runCmd_resolved cmd rest pathEnv fs absPath hres]
  simp [hargs, get_last_path_token, hseg]

/-- Witness for C7 (amended) at resolved path "/usr/bin/wc" and tokens
["wc","-l"]: argv[0] is "wc" and the vector ends after "-l". -/
theorem c7_argv0_basename_amended_witness :
    get_first_abs_path (get_env_paths "/usr/bin") "wc" ["/usr/bin/wc"] =
      some "/usr/bin/wc"
  ∧ isRedirTok "wc" = false
  ∧ 2 ≤ (strtokRuns '/' "/usr/bin/wc".data []).length
  ∧ (runCmd ["wc", "-l"] "/usr/bin" ["/usr/bin/wc"]).exec =
      some ⟨"/usr/bin/wc",
            ((strtokRuns '/' "/usr/bin/wc".data []).getLast?.map String.mk) ::
              ((splitAtRedir ["-l"]).1.map some),
            true⟩ :=
  ⟨by decide, by decide, by decide,
   c7_argv0_basename_amended "wc" ["-l"] "/usr/bin" ["/usr/bin/wc"] "/usr/bin/wc"
     (by decide) (by decide) (by decide)⟩

/-- C8: a redirection token with a following target stops argument
capture (the vector holds exactly the tokens before it), the descriptor
records the operator and the next token as target, and the descriptor is
discarded before fork (redir_syn reset to the empty string), so the
child's exec sees only the resolved path and the redirection-free
argument vector. Concretely, ["cat","file.txt",">","out.txt"] gives
arguments ["cat","file.txt"] and descriptor (">", "out.txt"). -/
theorem c8_redir_capture_and_discard (cmd : String) (pre : List String)
    (op tgt : String) (post : List String) (pathEnv : String) (fs : FileSys)
    (absPath : String)
    (hop : isRedirTok op = true)
    (hcmd : isRedirTok cmd = false)
    (hpre : ∀ t ∈ pre, isRedirTok t = false)
    (hres : get_first_abs_path (get_env_paths pathEnv) cmd fs = some absPath) :
    get_args (cmd :: (pre ++ op :: tgt :: post)) =
      ⟨cmd :: pre, some op, some tgt, false⟩
  ∧ (runCmd (cmd :: (pre ++ op :: tgt :: post)) pathEnv fs).redir_syn_at_fork =
      some ""
  ∧ (runCmd (cmd :: (pre ++ op :: tgt :: post)) pathEnv fs).exec =
      some ⟨absPath, get_last_path_token absPath :: pre.map some, true⟩
  ∧ get_args ["cat", "file.txt", ">", "out.txt"] =
      ⟨["cat", "file.txt"], some ">", some "out.txt", false⟩ := by
  have hsplit : splitAtRedir (cmd :: (pre ++ op :: tgt :: post)) =
      (cmd :: pre, some (op, tgt :: post)) := by
    simp [splitAtRedir, hcmd, splitAtRedir_append pre op (tgt :: post) hop hpre]
  have hga : get_args (cmd :: (pre ++ op :: tgt :: post)) =
      ⟨cmd :: pre, some op, some tgt, false⟩ := by
    simp [get_args, hsplit]
  refine ⟨hga, ?_, ?_, by decide⟩
  · rw [runCmd_resolved cmd (pre ++ op :: tgt :: post) pathEnv fs absPath hres]
  · rw [runCmd_resolved cmd (pre ++ op :: tgt :: post) pathEnv fs absPath hres]
    simp [hga]

/-- Witness for C8 at tokens ["cat","file.txt",">","out.txt"], PATH
"/bin", file "/bin/cat" existing. -/
theorem c8_redir_capture_and_discard_witness :
    isRedirTok ">" = true
  ∧ isRedirTok "cat" = false
  ∧ (∀ t ∈ ["file.txt"], isRedirTok t = false)
  ∧ get_first_abs_path (get_env_paths "/bin") "cat" ["/bin/cat"] = some "/bin/cat"
  ∧ get_args ("cat" :: (["file.txt"] ++ ">" :: "out.txt" :: [])) =
      ⟨"cat" :: ["file.txt"], some ">", some "out.txt", false⟩ :=
  ⟨by decide, by decide, by decide, by decide,
   (c8_redir_capture_and_discard "cat" ["file.txt"] ">" "out.txt" [] "/bin"
      ["/bin/cat"] "/bin/cat" (by decide) (by decide) (by decide) (by decide)).1⟩

/-- C9: a first token exactly matching a built-in table entry makes the
dispatcher run that built-in, independent of the search path and of the
filesystem (so no resolution and no process creation happens even if a
same-named executable exists on the search path); lookup of an absent
name is none, lookup of an unmatched name is none, and on a none lookup
the dispatcher delegates the tokens to runCmd. -/
theorem c9_builtin_short_circuit (tokens : List String) (c : String) (i : Nat)
    (hhead : tokens_get_token tokens 0 = some c)
    (hlook : lookup (some c) = some i) :
    (∀ (pathEnv : String) (fs : FileSys),
       main_step tokens pathEnv fs = LineAction.builtin i)
  ∧ lookup none = none
  ∧ (∀ c2 : String, (∀ e ∈ cmd_table, e.1 ≠ c2) → lookup (some c2) = none)
  ∧ (∀ (toks : List String) (pathEnv : String) (fs : FileSys),
       lookup (tokens_get_token toks 0) = none →
       main_step toks pathEnv fs = LineAction.run_ext (runCmd toks pathEnv fs)) := by
  refine ⟨?_, rfl, ?_, ?_⟩
  · intro pathEnv fs
    simp [main_step, hhead, hlook]
  · intro c2 h
    exact lookupIdx_eq_none c2 cmd_table 0 h
  · intro toks pathEnv fs h
    simp [main_step, h]

/-- Witness for C9 at line "pwd" with a same-named executable "/bin/pwd"
present on the search path "/bin": the built-in at index 0 runs. -/
theorem c9_builtin_short_circuit_witness :
    tokens_get_token ["pwd"] 0 = some "pwd"
  ∧ lookup (some "pwd") = some 0
  ∧ main_step ["pwd"] "/bin" ["/bin/pwd"] = LineAction.builtin 0 :=
  ⟨rfl, by decide,
   (c9_builtin_short_circuit ["pwd"] "pwd" 0 rfl (by decide)).1 "/bin" ["/bin/pwd"]⟩

/-- C10: cmd_cd returns 0 for every token sequence and every outcome of
the underlying chdir call — the chdir result is discarded, the return
value never signals failure; with no directory argument the NULL token
is handed to chdir and 0 is still returned. -/
theorem c10_cd_always_returns_zero :
    (∀ (tokens : List String) (os_chdir : Option String → Bool),
       (cmd_cd tokens os_chdir).ret = 0)
  ∧ (∀ (tokens : List String) (f g : Option String → Bool),
       cmd_cd tokens f = cmd_cd tokens g)
  ∧ (∀ f : Option String → Bool, (cmd_cd ["cd"] f).dir_arg = none)
  ∧ (∀ f : Option String → Bool,
       (cmd_cd ["cd", "missing"] f).dir_arg = some "missing") :=
  ⟨fun _ _ => rfl, fun _ _ _ => rfl, fun _ => rfl, fun _ => rfl⟩
